import Mathlib

/-!
Shallow embedding of `src/asset_manager.py` (DAKOSYS asset manager).

Pure data transformations (path resolution, list classification, change
detection, merge of collection settings) are translated as Lean functions.
Stateful collaborators (filesystem, Trakt auth, HTTP) are modelled by an
explicit `Env` record that carries the file store and the outcome of each
collaborator call; functions thread the environment.  A Python function that
can let an exception escape to its caller is modelled with `Except`.
-/

set_option autoImplicit false

namespace AssetManager

/-- A scalar or list value stored in a field of a YAML mapping. -/
inductive Val where
  | str (s : String)
  | nat (n : Nat)
  | strs (l : List String)
deriving DecidableEq, Repr

/-- One collection category entry: an insertion-ordered mapping of field
names to values (`trakt_list`, `sync_mode`, free-form user settings...). -/
structure Entry where
  fields : List (String × Val)
deriving DecidableEq, Repr

/-- First-match association-list lookup (Python `dict` access). -/
def lookupA {α : Type} : List (String × α) → String → Option α
  | [], _ => none
  | (k, v) :: rest, key => if k = key then some v else lookupA rest key

/-- Python `d[k] = v`: replace the value in place if the key is present
(keeping its position), otherwise append the pair at the end. -/
def setField : List (String × Val) → String → Val → List (String × Val)
  | [], k, v => [(k, v)]
  | (k', v') :: rest, k, v =>
      if k' = k then (k, v) :: rest else (k', v') :: setField rest k v

def getField (e : Entry) (k : String) : Option Val :=
  lookupA e.fields k

/-- `collection_data.get('trakt_list', [])` read as a URL list. -/
def Entry.traktList (e : Entry) : List String :=
  match getField e "trakt_list" with
  | some (.strs l) => l
  | _ => []

/-- `set(a) == set(b)` on URL lists. -/
def setEq (a b : List String) : Bool :=
  a.all (fun x => b.contains x) && b.all (fun x => a.contains x)

/-- One record returned by the Trakt lists endpoint: a display name and an
optional slug (`trakt_list.get('ids', {}).get('slug', name)` falls back to
the name when the slug is absent). -/
structure TraktList where
  name : String
  slug : Option String
deriving DecidableEq, Repr

/-- Split a character list at its first underscore; `none` when there is
none. -/
def splitFirstUnderscoreAux : List Char → Option (List Char × List Char)
  | [] => none
  | c :: rest =>
    if c = '_' then some ([], rest)
    else
      match splitFirstUnderscoreAux rest with
      | none => none
      | some (a, b) => some (c :: a, b)

/-- Python `name.split('_', 1)` guarded by `'_' in name`: split at the first
underscore only; `none` when the name has no underscore. -/
def splitFirstUnderscore (s : String) : Option (String × String) :=
  match splitFirstUnderscoreAux s.data with
  | none => none
  | some (a, b) => some (String.mk a, String.mk b)

/-- ASCII lowercasing, the effect of Python `str.lower()` on the ASCII
tokens this module compares against. -/
def lowerString (s : String) : String :=
  String.mk (s.data.map Char.toLower)

/-- The synonym table of the classifier: normalized episode-type token to
category display name (the if/elif chain of the source). -/
def categoryOfEpisodeType (episodeType : String) : Option String :=
  let e := lowerString episodeType
  if e = "filler" then some "Fillers"
  else if e = "manga-canon" then some "Manga Canon"
  else if e = "manga canon" then some "Manga Canon"
  else if e = "anime-canon" then some "Anime Canon"
  else if e = "anime canon" then some "Anime Canon"
  else if e = "mixed-canon-filler" then some "Mixed Canon/Filler"
  else if e = "mixed canon/filler" then some "Mixed Canon/Filler"
  else none

def listUrl (username : String) (t : TraktList) : String :=
  "https://trakt.tv/users/" ++ username ++ "/lists/" ++ (t.slug.getD t.name)

/-- The `collections_data` accumulator: category display name to the list of
URLs appended so far. -/
abbrev CollectionsData := List (String × List String)

def fixedCategoryNames : List String :=
  ["Fillers", "Manga Canon", "Anime Canon", "Mixed Canon/Filler"]

def emptyCollectionsData : CollectionsData :=
  [("Fillers", []), ("Manga Canon", []), ("Anime Canon", []),
   ("Mixed Canon/Filler", [])]

/-- `collections_data[cat].append(url)`. -/
def appendTo (cd : CollectionsData) (cat url : String) : CollectionsData :=
  cd.map (fun p => if p.1 = cat then (p.1, p.2 ++ [url]) else p)

/-- The body of the classification loop for one Trakt list record. -/
def classifyStep (username : String) (cd : CollectionsData) (t : TraktList) :
    CollectionsData :=
  match splitFirstUnderscore t.name with
  | none => cd
  | some (_, episodeType) =>
    match categoryOfEpisodeType episodeType with
    | none => cd
    | some cat => appendTo cd cat (listUrl username t)

/-- The classification loop of `sync_anime_episode_collections`
(lines 182-224 of the source). -/
def classify (username : String) (lists : List TraktList) : CollectionsData :=
  lists.foldl (classifyStep username) emptyCollectionsData

/-- Change detection (lines 242-250): walk the categories of the existing
file in order; the first category that is also a key of `collections_data`
and whose stored URL set differs from the fresh one yields `true`. -/
def changesDetected (cd : CollectionsData) : List (String × Entry) → Bool
  | [] => false
  | (name, e) :: rest =>
    match lookupA cd name with
    | some newList =>
        if setEq e.traktList newList then changesDetected cd rest else true
    | none => changesDetected cd rest

/-- Python `str.replace` on character lists: replace every non-overlapping
occurrence of `pat`, scanning left to right (for nonempty `pat`, as used
here).  The fuel argument, initially the length of the list, makes the
recursion structural; it never runs out on the module's nonempty patterns. -/
def replaceLAux (pat rep : List Char) : Nat → List Char → List Char
  | 0, l => l
  | _ + 1, [] => []
  | fuel + 1, c :: rest =>
    if pat.isPrefixOf (c :: rest) then
      rep ++ replaceLAux pat rep fuel (rest.drop (pat.length - 1))
    else c :: replaceLAux pat rep fuel rest

def replaceL (pat rep l : List Char) : List Char :=
  replaceLAux pat rep l.length l

/-- Python `s.replace(pat, rep)` for the nonempty literal patterns used by
the module. -/
def pyReplace (s pat rep : String) : String :=
  String.mk (replaceL pat.data rep.data s.data)

/-- `collection_name.replace(' Canon/Filler', '').replace(' Canon', 'Canon')`. -/
def defaultItemLabel (name : String) : String :=
  pyReplace (pyReplace name " Canon/Filler" "") " Canon" "Canon"

/-- The default settings dict of the merge step, in source insertion order. -/
def defaultEntry (name : String) (urls : List String) : Entry :=
  ⟨[("trakt_list", .strs urls),
    ("sync_mode", .str "sync"),
    ("item_label", .str (defaultItemLabel name)),
    ("builder_level", .str "episode"),
    ("cache_builders", .nat 6)]⟩

/-- The merge loop (lines 255-275): for each entry of `collections_data`, in
order, either copy the existing settings and overwrite `trakt_list`, or
synthesize the default settings. -/
def mergeCollections (existing : List (String × Entry)) (cd : CollectionsData) :
    List (String × Entry) :=
  cd.map (fun p =>
    match lookupA existing p.1 with
    | some e => (p.1, Entry.mk (setField e.fields "trakt_list" (.strs p.2)))
    | none => (p.1, defaultEntry p.1 p.2))

/-! Configuration (the nested mapping read through `.get` chains). -/

/-- The `services.tv_status_tracker` block. -/
structure TvTrackerConfig where
  yaml_output_dir : Option String
  collections_dir : Option String
  font_path : Option String
deriving DecidableEq, Repr

/-- Visual overlay settings under `services.anime_episode_type.overlay`;
each key may be absent (`.get(key, default)` at the use site). -/
structure OverlaySettings where
  horizontal_offset : Option Int
  horizontal_align : Option String
  vertical_offset : Option Int
  vertical_align : Option String
  font_size : Option Nat
  back_width : Option Nat
  back_height : Option Nat
  back_color : Option String
deriving DecidableEq, Repr

/-- The `services.anime_episode_type` block. -/
structure AnimeEpisodeTypeConfig where
  enabled : Bool
  overlay : OverlaySettings
deriving DecidableEq, Repr

/-- The application configuration, restricted to the keys this module
reads; a `none` models the whole nested key being absent or `None`. -/
structure Config where
  kometa_yaml_output_dir : Option String
  kometa_collections_dir : Option String
  tv_status_tracker : Option TvTrackerConfig
  anime_episode_type : Option AnimeEpisodeTypeConfig
  trakt_username : Option String
deriving DecidableEq, Repr

/-- Python truthiness on an optional string: both `None` and the empty
string count as absent (`if not yaml_output_dir: ...`). -/
def truthyStr : Option String → Option String
  | some s => if s = "" then none else some s
  | none => none

/-- `get_kometa_paths`: overlay and collections paths with fallbacks
(new global format, then legacy tv_status_tracker block, then defaults). -/
def get_kometa_paths (config : Config) : String × String :=
  let yaml_output_dir := truthyStr config.kometa_yaml_output_dir
  let collections_dir := truthyStr config.kometa_collections_dir
  let yaml_output_dir :=
    match yaml_output_dir with
    | some y => some y
    | none =>
      match config.tv_status_tracker with
      | some t => truthyStr t.yaml_output_dir
      | none => none
  let collections_dir :=
    match collections_dir with
    | some c => some c
    | none =>
      match config.tv_status_tracker with
      | some t => truthyStr t.collections_dir
      | none => none
  (yaml_output_dir.getD "/kometa/config/overlays",
   collections_dir.getD "/kometa/config/collections")

/-! The environment: file store plus collaborator outcomes. -/

/-- Content of the overlay block written by `create_anime_overlay_files`
(the inner `overlay:` mapping). -/
structure OverlayBody where
  name : String
  horizontal_offset : Int
  horizontal_align : String
  vertical_offset : Int
  vertical_align : String
  font_size : Nat
  font : String
  back_width : Nat
  back_height : Nat
  back_color : String
deriving DecidableEq, Repr

/-- A whole overlay definition file: `overlays:` with one named entry,
its builder level, the overlay block and the plex episode-label filter. -/
structure OverlayFile where
  overlay_name : String
  builder_level : String
  overlay : OverlayBody
  episode_label : String
deriving DecidableEq, Repr

/-- What a file on disk can hold, as far as this module observes it:
a parsed collections document (whose `collections` key may be absent),
an overlay document, unreadable/unparsable bytes, or arbitrary other bytes. -/
inductive FileContent where
  | collectionsDoc (collections : Option (List (String × Entry)))
  | overlayDoc (o : OverlayFile)
  | unreadable
  | raw (s : String)
deriving DecidableEq, Repr

/-- Outcome of the single `requests.get` on the lists URL: the call itself
raises (connection error), or returns a status and a body that either
decodes to a list of records or makes `response.json()` raise. -/
inductive HttpResult where
  | exn
  | resp (status : Nat) (body : Option (List TraktList))

/-- A Python exception escaping a function of this module. -/
inductive SyncExn where
  | httpExn
  | jsonExn
deriving DecidableEq, Repr

/-- The world the module interacts with: a file store (path to content)
and the outcome of each collaborator call, keyed by path where relevant. -/
structure Env where
  fs : List (String × FileContent)
  dirOk : String → Bool
  authToken : Option String
  http : HttpResult
  writeOk : String → Bool

def fsLookup (fs : List (String × FileContent)) (p : String) :
    Option FileContent :=
  lookupA fs p

/-- Writing a file: replace the content in place, or create the file. -/
def fsWrite : List (String × FileContent) → String → FileContent →
    List (String × FileContent)
  | [], p, c => [(p, c)]
  | (q, c') :: rest, p, c =>
      if q = p then (p, c) :: rest else (q, c') :: fsWrite rest p c

/-- `os.path.join(a, b)` for a relative `b`. -/
def joinPath (a b : String) : String :=
  if a = "" then b
  else if a.data.getLast? = some '/' then a ++ b
  else a ++ "/" ++ b

/-- `os.path.dirname` (posix): everything up to the last slash, with
trailing slashes stripped unless the head is all slashes. -/
def dirname (p : String) : String :=
  let chars := p.data
  match chars.reverse.findIdx? (fun c => c = '/') with
  | none => ""
  | some j =>
    let head := chars.take (chars.length - j)
    if head.all (fun c => c = '/') then String.mk head
    else String.mk ((head.reverse.dropWhile (fun c => c = '/')).reverse)

def CONTAINER_ASSETS_DIR : String := "/app/assets"
def CONTAINER_FONTS_DIR : String := "/app/fonts"

/-- `copy_asset`: ensure the destination directory, then copy; a missing
source makes `shutil.copy2` raise, which is caught and turned into `False`. -/
def copy_asset (env : Env) (source destination : String) : Bool × Env :=
  if env.dirOk (dirname destination) then
    match fsLookup env.fs source with
    | some c =>
        if env.writeOk destination then
          (true, { env with fs := fsWrite env.fs destination c })
        else (false, env)
    | none => (false, env)
  else (false, env)

/-- The `assets/Next Airing` directory of `setup_collection_posters`. -/
def poster_assets_dir (config : Config) : String :=
  joinPath (joinPath (dirname (get_kometa_paths config).2) "assets") "Next Airing"

def poster_source : String :=
  joinPath CONTAINER_ASSETS_DIR "next_airing_poster.jpg"

def poster_dest (config : Config) : String :=
  joinPath (poster_assets_dir config) "poster.jpg"

/-- `setup_collection_posters`. -/
def setup_collection_posters (config : Config) (env : Env) : Bool × Env :=
  if env.dirOk (poster_assets_dir config) then
    if (fsLookup env.fs poster_source).isSome then
      copy_asset env poster_source (poster_dest config)
    else (false, env)
  else (false, env)

/-- The `kometa_config` local of `setup_fonts`: derived from the legacy
tracker block when present (plain `.get` with a default, no truthiness),
else the fixed default. -/
def fonts_kometa_config (config : Config) : String :=
  match config.tv_status_tracker with
  | some t => dirname (t.collections_dir.getD "/kometa/config/collections")
  | none => "/kometa/config"

def fonts_dir (config : Config) : String :=
  joinPath (fonts_kometa_config config) "fonts"

def font_source : String :=
  joinPath CONTAINER_FONTS_DIR "Juventus-Fans-Bold.ttf"

def font_dest (config : Config) : String :=
  joinPath (fonts_dir config) "Juventus-Fans-Bold.ttf"

/-- The font-path write-back into the configuration after a successful
copy: only performed when the tracker block is present. -/
def fontConfigUpdate (config : Config) : Config :=
  match config.tv_status_tracker with
  | some t =>
      { config with
          tv_status_tracker := some { t with font_path := some (font_dest config) } }
  | none => config

/-- `setup_fonts`; the configuration is returned because a successful copy
writes the font path back into it. -/
def setup_fonts (config : Config) (env : Env) : Bool × Config × Env :=
  if env.dirOk (fonts_dir config) then
    match fsLookup env.fs font_source with
    | some _ =>
      if (copy_asset env font_source (font_dest config)).1 then
        (true, fontConfigUpdate config,
         (copy_asset env font_source (font_dest config)).2)
      else (false, config, (copy_asset env font_source (font_dest config)).2)
    | none => (false, config, env)
  else (false, config, env)

/-! The overlay template emitter. -/

/-- The per-category constants of `overlay_configs`: file name, overlay
entry name, display name, episode label. -/
structure OverlayCfg where
  filename : String
  overlay_name : String
  name : String
  label : String
deriving DecidableEq, Repr

def overlayConfigs : List OverlayCfg :=
  [⟨"fillers.yml", "filler_overlay", "Filler", "Filler"⟩,
   ⟨"manga_canon.yml", "manga_overlay", "Manga Canon", "MangaCanon"⟩,
   ⟨"anime_canon.yml", "anime_overlay", "Anime Canon", "AnimeCanon"⟩,
   ⟨"mixed.yml", "mixed_overlay", "Mixed Canon/Filler", "Mixed"⟩]

def overlayFontPath : String := "config/fonts/Juventus-Fans-Bold.ttf"

def overlaySettingsOf (config : Config) : OverlaySettings :=
  match config.anime_episode_type with
  | some a => a.overlay
  | none => ⟨none, none, none, none, none, none, none, none⟩

/-- The `overlay_content` dict built for one category. -/
def mkOverlayContent (settings : OverlaySettings) (oc : OverlayCfg) :
    FileContent :=
  .overlayDoc
    { overlay_name := oc.overlay_name
      builder_level := "episode"
      overlay :=
        { name := "text(" ++ oc.name ++ ")"
          horizontal_offset := settings.horizontal_offset.getD 0
          horizontal_align := settings.horizontal_align.getD "center"
          vertical_offset := settings.vertical_offset.getD 0
          vertical_align := settings.vertical_align.getD "top"
          font_size := settings.font_size.getD 75
          font := overlayFontPath
          back_width := settings.back_width.getD 1920
          back_height := settings.back_height.getD 125
          back_color := settings.back_color.getD "#262626" }
      episode_label := oc.label }

/-- The body of the emitter loop for one category. -/
def overlayStep (yaml_output_dir : String) (settings : OverlaySettings)
    (acc : Bool × Env) (oc : OverlayCfg) : Bool × Env :=
  let overlay_file := joinPath yaml_output_dir oc.filename
  match fsLookup acc.2.fs overlay_file with
  | some _ => acc
  | none =>
    if acc.2.writeOk overlay_file then
      (acc.1,
       { acc.2 with
           fs := fsWrite acc.2.fs overlay_file (mkOverlayContent settings oc) })
    else (false, acc.2)

/-- `create_anime_overlay_files` (lines 293-370). -/
def create_anime_overlay_files (config : Config) (env : Env) : Bool × Env :=
  let yaml_output_dir := (get_kometa_paths config).1
  let overlay_settings := overlaySettingsOf config
  if env.dirOk yaml_output_dir then
    overlayConfigs.foldl (overlayStep yaml_output_dir overlay_settings)
      (true, env)
  else (false, env)

/-! The synchronization algorithm. -/

def collectionsFilePath (config : Config) : String :=
  joinPath (get_kometa_paths config).2 "anime_episode_type.yml"

/-- Reading the existing collections file: an absent, unreadable, or
collections-less file is treated as an empty category mapping. -/
def existingCollectionsOf (fs : List (String × FileContent)) (path : String) :
    List (String × Entry) :=
  match fsLookup fs path with
  | some (.collectionsDoc (some m)) => m
  | _ => []

/-- The tail of `sync_anime_episode_collections` once the remote lists are
in hand (lines 181-291): classify, read the existing file, detect changes,
merge and write, then trigger the overlay emitter (its result is ignored). -/
def syncWithLists (config : Config) (env : Env) (force_update : Bool)
    (trakt_username : String) (trakt_lists : List TraktList) : Bool × Env :=
  let collections_data := classify trakt_username trakt_lists
  let collections_file := collectionsFilePath config
  let existing := existingCollectionsOf env.fs collections_file
  let changes_detected := force_update || changesDetected collections_data existing
  if changes_detected then
    if env.writeOk collections_file then
      let env1 :=
        { env with
            fs := fsWrite env.fs collections_file
              (.collectionsDoc (some (mergeCollections existing collections_data))) }
      (true, (create_anime_overlay_files config env1).2)
    else (false, env)
  else (true, env)

/-- `sync_anime_episode_collections` (lines 137-291).  The early guards:
collections directory creation, configured username (with Python
truthiness), Trakt token, the HTTP call (which may raise), the status
check, and JSON decoding (which may raise). -/
def sync_anime_episode_collections (config : Config) (env : Env)
    (force_update : Bool) : Except SyncExn (Bool × Env) :=
  if env.dirOk (get_kometa_paths config).2 then
    match truthyStr config.trakt_username with
    | none => .ok (false, env)
    | some trakt_username =>
      match env.authToken with
      | none => .ok (false, env)
      | some _ =>
        match env.http with
        | .exn => .error .httpExn
        | .resp status body =>
          if status = 200 then
            match body with
            | none => .error .jsonExn
            | some trakt_lists =>
                .ok (syncWithLists config env force_update trakt_username
                      trakt_lists)
          else .ok (false, env)
  else .ok (false, env)

/-- `update_anime_episode_collections`: sync with `force_update=True`. -/
def update_anime_episode_collections (config : Config) (env : Env) :
    Except SyncExn (Bool × Env) :=
  sync_anime_episode_collections config env true

/-- `config.get('services', {}).get('anime_episode_type', {}).get('enabled',
False)`. -/
def anime_enabled (config : Config) : Bool :=
  match config.anime_episode_type with
  | some a => a.enabled
  | none => false

/-- The tail of `setup_assets` after posters and fonts: when the anime
episode type service is enabled, run the forced collections sync (whose
result is printed but not returned) and the overlay emitter; always answer
`True`.  The argument is the result of `setup_fonts`. -/
def setup_assets_aux (r : Bool × Config × Env) :
    Except SyncExn (Bool × Config × Env) :=
  if anime_enabled r.2.1 then
    match update_anime_episode_collections r.2.1 r.2.2 with
    | .error e => .error e
    | .ok s => .ok (true, r.2.1, (create_anime_overlay_files r.2.1 s.2).2)
  else .ok (true, r.2.1, r.2.2)

/-- `setup_assets` (lines 378-412): run the provisioning steps, printing but
otherwise ignoring their results, and return `True`. -/
def setup_assets (config : Config) (env : Env) :
    Except SyncExn (Bool × Config × Env) :=
  setup_assets_aux (setup_fonts config (setup_collection_posters config env).2)

/-! Auxiliary definitions used by the verification (specification views,
predicates on collaborator outcomes, and concrete evaluation inputs). -/

/-- The URL a single Trakt list record contributes to category `cat`,
if any: the specification-side view of one iteration of the
classification loop. -/
def classifiedUrl (username cat : String) (t : TraktList) : Option String :=
  match splitFirstUnderscore t.name with
  | none => none
  | some (_, episodeType) =>
    if categoryOfEpisodeType episodeType = some cat then
      some (listUrl username t)
    else none

/-- Two environments that agree on every collaborator outcome (everything
but the file store). -/
def sameCollab (e1 e2 : Env) : Prop :=
  e1.dirOk = e2.dirOk ∧ e1.authToken = e2.authToken ∧ e1.http = e2.http ∧
    e1.writeOk = e2.writeOk

/-- The four overlay file paths for a given configuration. -/
def overlayPaths (config : Config) : List String :=
  overlayConfigs.map (fun oc => joinPath (get_kometa_paths config).1 oc.filename)

/-- The collections document stored at `path`, when the file holds one. -/
def storedCollections (fs : List (String × FileContent)) (path : String) :
    Option (List (String × Entry)) :=
  match fsLookup fs path with
  | some (.collectionsDoc m) => m
  | _ => none

/-- A configuration used for concrete evaluation of the theorems. -/
def cfg0 : Config :=
  { kometa_yaml_output_dir := some "/kometa/config/overlays"
    kometa_collections_dir := some "/kometa/config/collections"
    tv_status_tracker := none
    anime_episode_type := none
    trakt_username := some "alice" }

def demoLists : List TraktList := [⟨"Naruto_filler", some "naruto-filler"⟩]

/-- An environment where every collaborator call succeeds and the remote
service returns `demoLists`; the disk starts empty. -/
def env0 : Env :=
  { fs := []
    dirOk := fun _ => true
    authToken := some "token"
    http := .resp 200 (some demoLists)
    writeOk := fun _ => true }

/-- The environment after a first, forced sync run from `env0`. -/
def env0Synced : Env :=
  match sync_anime_episode_collections cfg0 env0 true with
  | .ok r => r.2
  | .error _ => env0

/-- A prior collections file holding a single, non-fixed category with a
custom `sync_mode` setting. -/
def customPriorDoc : List (String × Entry) :=
  [("Custom", ⟨[("sync_mode", .str "append"),
                ("trakt_list", .strs ["https://trakt.tv/users/alice/lists/old"])]⟩)]

/-- An environment whose disk already holds `customPriorDoc`. -/
def envCustom : Env :=
  { env0 with fs := [(collectionsFilePath cfg0, .collectionsDoc (some customPriorDoc))] }

/-- The environment after a forced sync run from `envCustom`. -/
def envCustomSynced : Env :=
  match sync_anime_episode_collections cfg0 envCustom true with
  | .ok r => r.2
  | .error _ => envCustom

/-- An environment whose disk already holds an overlay file with arbitrary
bytes. -/
def envOverlay : Env :=
  { env0 with fs := [(joinPath "/kometa/config/overlays" "fillers.yml",
                      .raw "custom bytes")] }

/-- The result of `setup_assets` on the demo configuration. -/
def assets0 : Bool × Config × Env :=
  match setup_assets cfg0 env0 with
  | .ok r => r
  | .error _ => (false, cfg0, env0)

/-! Basic lemmas about association lists, the file store and entry fields. -/

theorem lookupA_eq_none_iff {α : Type} (l : List (String × α)) (k : String) :
    lookupA l k = none ↔ k ∉ l.map Prod.fst := by
  induction l with
  | nil => simp [lookupA]
  | cons p rest ih =>
    obtain ⟨k', v⟩ := p
    by_cases h : k' = k
    · subst h
      simp [lookupA]
    · simp [lookupA, h, ih, Ne.symm h]

theorem lookupA_of_mem_nodup {α : Type} (l : List (String × α)) (k : String)
    (v : α) (hnd : (l.map Prod.fst).Nodup) (hm : (k, v) ∈ l) :
    lookupA l k = some v := by
  induction l with
  | nil => cases hm
  | cons p rest ih =>
    obtain ⟨k', v'⟩ := p
    simp only [List.map_cons, List.nodup_cons] at hnd
    rcases List.mem_cons.mp hm with h | h
    · rw [Prod.mk.injEq] at h
      obtain ⟨rfl, rfl⟩ := h
      simp [lookupA]
    · have hk : k' ≠ k := by
        intro he
        exact hnd.1 (List.mem_map.mpr ⟨(k, v), h, he.symm⟩)
      simp [lookupA, hk, ih hnd.2 h]

theorem fsLookup_fsWrite (fs : List (String × FileContent)) (p : String)
    (c : FileContent) (q : String) :
    fsLookup (fsWrite fs p c) q = if p = q then some c else fsLookup fs q := by
  induction fs with
  | nil => simp [fsLookup, fsWrite, lookupA]
  | cons pr rest ih =>
    obtain ⟨k, v⟩ := pr
    by_cases hkp : k = p
    · subst hkp
      by_cases hq : k = q <;> simp [fsLookup, fsWrite, lookupA, hq]
    · by_cases hq : k = q
      · subst hq
        have hpk : ¬ p = k := fun he => hkp he.symm
        simp [fsLookup, fsWrite, lookupA, hkp, hpk]
      · simpa [fsLookup, fsWrite, lookupA, hkp, hq] using ih

theorem lookupA_setField (l : List (String × Val)) (k : String) (v : Val)
    (key : String) :
    lookupA (setField l k v) key = if k = key then some v else lookupA l key := by
  induction l with
  | nil => simp [setField, lookupA]
  | cons pr rest ih =>
    obtain ⟨k', v'⟩ := pr
    by_cases hk : k' = k
    · subst hk
      by_cases hq : k' = key <;> simp [setField, lookupA, hq]
    · by_cases hq : k' = key
      · subst hq
        have : ¬ k = k' := fun he => hk he.symm
        simp [setField, lookupA, hk, this]
      · simpa [setField, lookupA, hk, hq] using ih

theorem traktList_setField (f : List (String × Val)) (u : List String) :
    (Entry.mk (setField f "trakt_list" (.strs u))).traktList = u := by
  simp [Entry.traktList, getField, lookupA_setField]

theorem traktList_defaultEntry (n : String) (u : List String) :
    (defaultEntry n u).traktList = u := rfl

theorem setEq_refl (l : List String) : setEq l l = true := by
  simp only [setEq, Bool.and_eq_true, List.all_eq_true]
  exact ⟨fun x hx => List.elem_eq_true_of_mem hx,
         fun x hx => List.elem_eq_true_of_mem hx⟩

/-! Characterization of the classifier. -/

theorem lookupA_cons {α : Type} (k : String) (v : α) (rest : List (String × α))
    (key : String) :
    lookupA ((k, v) :: rest) key = if k = key then some v else lookupA rest key :=
  rfl

theorem appendTo_cons (k : String) (l : List String) (rest : CollectionsData)
    (cat url : String) :
    appendTo ((k, l) :: rest) cat url =
      (if k = cat then (k, l ++ [url]) else (k, l)) :: appendTo rest cat url :=
  rfl

theorem lookupA_appendTo (cd : CollectionsData) (cat url key : String) :
    lookupA (appendTo cd cat url) key =
      if key = cat then (lookupA cd key).map (fun l => l ++ [url])
      else lookupA cd key := by
  induction cd with
  | nil => by_cases h : key = cat <;> simp [appendTo, lookupA, h]
  | cons p rest ih =>
    obtain ⟨k, l⟩ := p
    rw [appendTo_cons]
    by_cases hk : k = cat
    · subst hk
      rw [if_pos rfl]
      by_cases hq : k = key
      · subst hq
        simp [lookupA_cons]
      · have hq' : ¬ key = k := fun he => hq he.symm
        simp [lookupA_cons, hq, hq', ih]
    · rw [if_neg hk]
      by_cases hq : k = key
      · subst hq
        have hk' : ¬ k = cat := hk
        rw [lookupA_cons, if_pos rfl, lookupA_cons, if_pos rfl, if_neg hk']
      · rw [lookupA_cons, if_neg hq, ih, lookupA_cons, if_neg hq]

theorem lookupA_classifyStep (u : String) (cd : CollectionsData)
    (t : TraktList) (cat : String) :
    lookupA (classifyStep u cd t) cat =
      match classifiedUrl u cat t with
      | some url => (lookupA cd cat).map (fun l => l ++ [url])
      | none => lookupA cd cat := by
  unfold classifyStep classifiedUrl
  cases hs : splitFirstUnderscore t.name with
  | none => simp
  | some pr =>
    obtain ⟨a, et⟩ := pr
    cases hc : categoryOfEpisodeType et with
    | none => simp [hc]
    | some cat' =>
      by_cases he : cat' = cat
      · subst he
        simp [hc, lookupA_appendTo]
      · have hne : ¬ cat = cat' := fun h2 => he h2.symm
        simp [hc, lookupA_appendTo, he, hne]

theorem lookupA_classify_foldl (u cat : String) (ls : List TraktList) :
    ∀ cd : CollectionsData,
      lookupA (ls.foldl (classifyStep u) cd) cat =
        (lookupA cd cat).map (fun cur => cur ++ ls.filterMap (classifiedUrl u cat)) := by
  induction ls with
  | nil =>
    intro cd
    cases h : lookupA cd cat <;> simp [h]
  | cons t ts ih =>
    intro cd
    rw [List.foldl_cons, ih (classifyStep u cd t), lookupA_classifyStep]
    cases hu : classifiedUrl u cat t with
    | none => simp [List.filterMap_cons, hu]
    | some url =>
      cases h : lookupA cd cat <;> simp [List.filterMap_cons, hu, h]

/-- Per-category content of the classifier: within each of the four fixed
categories the URLs are exactly those contributed by the remote records, in
result order, one occurrence per contributing record. -/
theorem classify_lookup (u : String) (ls : List TraktList) (cat : String)
    (h : cat ∈ fixedCategoryNames) :
    lookupA (classify u ls) cat = some (ls.filterMap (classifiedUrl u cat)) := by
  have hbase : lookupA emptyCollectionsData cat = some [] := by
    simp only [fixedCategoryNames, List.mem_cons, List.mem_singleton,
      List.not_mem_nil, or_false] at h
    rcases h with rfl | rfl | rfl | rfl <;> rfl
  rw [classify, lookupA_classify_foldl, hbase]
  simp

theorem keys_appendTo (cd : CollectionsData) (cat url : String) :
    (appendTo cd cat url).map Prod.fst = cd.map Prod.fst := by
  induction cd with
  | nil => rfl
  | cons p rest ih =>
    by_cases h : p.1 = cat <;> simp [appendTo, h] <;>
      simpa [appendTo] using ih

theorem keys_classifyStep (u : String) (cd : CollectionsData) (t : TraktList) :
    (classifyStep u cd t).map Prod.fst = cd.map Prod.fst := by
  unfold classifyStep
  cases hs : splitFirstUnderscore t.name with
  | none => rfl
  | some pr =>
    obtain ⟨a, et⟩ := pr
    show (match categoryOfEpisodeType et with
          | none => cd
          | some cat => appendTo cd cat (listUrl u t)).map Prod.fst
        = cd.map Prod.fst
    cases hc : categoryOfEpisodeType et with
    | none => rfl
    | some cat => exact keys_appendTo cd cat (listUrl u t)

theorem keys_classify (u : String) (ls : List TraktList) :
    (classify u ls).map Prod.fst = fixedCategoryNames := by
  have : ∀ cd : CollectionsData,
      (ls.foldl (classifyStep u) cd).map Prod.fst = cd.map Prod.fst := by
    induction ls with
    | nil => intro cd; rfl
    | cons t ts ih =>
      intro cd
      rw [List.foldl_cons, ih, keys_classifyStep]
  rw [classify, this]
  rfl

theorem lookupA_classify_none (u : String) (ls : List TraktList) (n : String)
    (h : n ∉ fixedCategoryNames) : lookupA (classify u ls) n = none := by
  rw [lookupA_eq_none_iff, keys_classify]
  exact h

/-! Lemmas about the merge step and change detection. -/

theorem mergeCollections_cons (existing : List (String × Entry)) (k : String)
    (lst : List String) (rest : CollectionsData) :
    mergeCollections existing ((k, lst) :: rest) =
      (match lookupA existing k with
       | some e => (k, Entry.mk (setField e.fields "trakt_list" (.strs lst)))
       | none => (k, defaultEntry k lst)) :: mergeCollections existing rest :=
  rfl

theorem keys_mergeCollections (existing : List (String × Entry))
    (cd : CollectionsData) :
    (mergeCollections existing cd).map Prod.fst = cd.map Prod.fst := by
  induction cd with
  | nil => rfl
  | cons p rest ih =>
    obtain ⟨k, lst⟩ := p
    rw [mergeCollections_cons]
    cases lookupA existing k <;> simp [ih]

theorem lookupA_mergeCollections (existing : List (String × Entry))
    (cd : CollectionsData) (n : String) :
    lookupA (mergeCollections existing cd) n =
      (lookupA cd n).map (fun l =>
        match lookupA existing n with
        | some e => Entry.mk (setField e.fields "trakt_list" (.strs l))
        | none => defaultEntry n l) := by
  induction cd with
  | nil => rfl
  | cons p rest ih =>
    obtain ⟨k, lst⟩ := p
    rw [mergeCollections_cons]
    by_cases hk : k = n
    · subst hk
      cases he : lookupA existing k <;>
        simp [lookupA_cons, he]
    · cases he : lookupA existing k <;>
        simp [lookupA_cons, hk, ih]

theorem changesDetected_cons (cd : CollectionsData) (n : String) (e : Entry)
    (rest : List (String × Entry)) :
    changesDetected cd ((n, e) :: rest) =
      match lookupA cd n with
      | some newList =>
          if setEq e.traktList newList then changesDetected cd rest else true
      | none => changesDetected cd rest :=
  rfl

theorem changesDetected_cons_some (cd : CollectionsData) (n : String)
    (e : Entry) (rest : List (String × Entry)) (newList : List String)
    (h : lookupA cd n = some newList) :
    changesDetected cd ((n, e) :: rest) =
      if setEq e.traktList newList then changesDetected cd rest else true := by
  rw [changesDetected_cons, h]

theorem changesDetected_cons_none (cd : CollectionsData) (n : String)
    (e : Entry) (rest : List (String × Entry))
    (h : lookupA cd n = none) :
    changesDetected cd ((n, e) :: rest) = changesDetected cd rest := by
  rw [changesDetected_cons, h]

theorem changesDetected_eq_false_iff (cd : CollectionsData)
    (ex : List (String × Entry)) :
    changesDetected cd ex = false ↔
      ∀ n e, (n, e) ∈ ex → ∀ l, lookupA cd n = some l →
        setEq e.traktList l = true := by
  induction ex with
  | nil => simp [changesDetected]
  | cons p rest ih =>
    obtain ⟨n, e⟩ := p
    cases hl : lookupA cd n with
    | none =>
      rw [changesDetected_cons_none cd n e rest hl, ih]
      constructor
      · intro h n' e' hm l hl'
        rcases List.mem_cons.mp hm with hh | hh
        · rw [Prod.mk.injEq] at hh
          obtain ⟨rfl, rfl⟩ := hh
          rw [hl] at hl'
          cases hl'
        · exact h n' e' hh l hl'
      · intro h n' e' hm l hl'
        exact h n' e' (List.mem_cons_of_mem _ hm) l hl'
    | some newList =>
      rw [changesDetected_cons_some cd n e rest newList hl]
      by_cases hs : setEq e.traktList newList = true
      · rw [if_pos hs, ih]
        constructor
        · intro h n' e' hm l hl'
          rcases List.mem_cons.mp hm with hh | hh
          · rw [Prod.mk.injEq] at hh
            obtain ⟨rfl, rfl⟩ := hh
            rw [hl] at hl'
            cases hl'
            exact hs
          · exact h n' e' hh l hl'
        · intro h n' e' hm l hl'
          exact h n' e' (List.mem_cons_of_mem _ hm) l hl'
      · rw [if_neg hs]
        simp only [Bool.true_eq_false, false_iff]
        intro h
        exact hs (h n e (List.mem_cons_self _ _) newList hl)

theorem changesDetected_skip (cd : CollectionsData)
    (pre post : List (String × Entry)) (n : String) (e : Entry)
    (h : lookupA cd n = none) :
    changesDetected cd (pre ++ (n, e) :: post) =
      changesDetected cd (pre ++ post) := by
  induction pre with
  | nil =>
    rw [List.nil_append, List.nil_append, changesDetected_cons_none cd n e post h]
  | cons p rest ih =>
    obtain ⟨m, e'⟩ := p
    rw [List.cons_append, List.cons_append]
    cases hm : lookupA cd m with
    | none =>
      rw [changesDetected_cons_none cd m e' _ hm,
        changesDetected_cons_none cd m e' _ hm]
      exact ih
    | some newList =>
      rw [changesDetected_cons_some cd m e' _ newList hm,
        changesDetected_cons_some cd m e' _ newList hm]
      by_cases hs : setEq e'.traktList newList = true
      · rw [if_pos hs, if_pos hs]
        exact ih
      · rw [if_neg hs, if_neg hs]

theorem changesDetected_mergeCollections (ex : List (String × Entry))
    (cd : CollectionsData) (hnd : (cd.map Prod.fst).Nodup) :
    changesDetected cd (mergeCollections ex cd) = false := by
  rw [changesDetected_eq_false_iff]
  intro n e hm l hl
  obtain ⟨p, hp, hpe⟩ := List.mem_map.mp hm
  obtain ⟨k, lst⟩ := p
  have hk : n = k := by
    cases he : lookupA ex k <;> rw [he] at hpe <;>
      exact (congrArg Prod.fst hpe).symm
  subst hk
  have hlk : lookupA cd n = some lst := lookupA_of_mem_nodup cd n lst hnd hp
  rw [hlk] at hl
  have hll : lst = l := Option.some.inj hl
  have het : e.traktList = lst := by
    cases he : lookupA ex n <;> rw [he] at hpe
    · have h2 : defaultEntry n lst = e := congrArg Prod.snd hpe
      rw [← h2, traktList_defaultEntry]
    · have h2 : Entry.mk (setField _ "trakt_list" (.strs lst)) = e :=
        congrArg Prod.snd hpe
      rw [← h2, traktList_setField]
  rw [het, hll]
  exact setEq_refl l

theorem nodup_keys_classify (u : String) (ls : List TraktList) :
    ((classify u ls).map Prod.fst).Nodup := by
  rw [keys_classify]
  decide

/-! Lemmas about the overlay emitter and the environment it returns. -/

theorem sameCollab_refl (e : Env) : sameCollab e e :=
  ⟨rfl, rfl, rfl, rfl⟩

theorem sameCollab_trans {e1 e2 e3 : Env} (h1 : sameCollab e1 e2)
    (h2 : sameCollab e2 e3) : sameCollab e1 e3 :=
  ⟨h1.1.trans h2.1, h1.2.1.trans h2.2.1, h1.2.2.1.trans h2.2.2.1,
   h1.2.2.2.trans h2.2.2.2⟩

theorem sameCollab_setFs (e : Env) (fs : List (String × FileContent)) :
    sameCollab { e with fs := fs } e :=
  ⟨rfl, rfl, rfl, rfl⟩

theorem overlayStep_eq (y : String) (s : OverlaySettings) (acc : Bool × Env)
    (oc : OverlayCfg) :
    overlayStep y s acc oc =
      match fsLookup acc.2.fs (joinPath y oc.filename) with
      | some _ => acc
      | none =>
        if acc.2.writeOk (joinPath y oc.filename) = true then
          (acc.1,
           { acc.2 with
               fs := fsWrite acc.2.fs (joinPath y oc.filename)
                 (mkOverlayContent s oc) })
        else (false, acc.2) :=
  rfl

theorem overlayStep_sameCollab (y : String) (s : OverlaySettings)
    (acc : Bool × Env) (oc : OverlayCfg) :
    sameCollab (overlayStep y s acc oc).2 acc.2 := by
  rw [overlayStep_eq]
  cases hl : fsLookup acc.2.fs (joinPath y oc.filename) with
  | some c => exact sameCollab_refl _
  | none =>
    by_cases hw : acc.2.writeOk (joinPath y oc.filename) = true
    · rw [if_pos hw]
      exact sameCollab_setFs _ _
    · rw [if_neg hw]
      exact sameCollab_refl _

theorem foldl_overlayStep_sameCollab (y : String) (s : OverlaySettings)
    (l : List OverlayCfg) :
    ∀ acc : Bool × Env,
      sameCollab (l.foldl (overlayStep y s) acc).2 acc.2 := by
  induction l with
  | nil => intro acc; exact sameCollab_refl _
  | cons oc rest ih =>
    intro acc
    rw [List.foldl_cons]
    exact sameCollab_trans (ih (overlayStep y s acc oc))
      (overlayStep_sameCollab y s acc oc)

theorem create_anime_overlay_files_eq (config : Config) (env : Env) :
    create_anime_overlay_files config env =
      if env.dirOk (get_kometa_paths config).1 = true then
        overlayConfigs.foldl
          (overlayStep (get_kometa_paths config).1 (overlaySettingsOf config))
          (true, env)
      else (false, env) :=
  rfl

theorem create_anime_overlay_files_sameCollab (config : Config) (env : Env) :
    sameCollab (create_anime_overlay_files config env).2 env := by
  rw [create_anime_overlay_files_eq]
  by_cases hd : env.dirOk (get_kometa_paths config).1 = true
  · rw [if_pos hd]
    exact foldl_overlayStep_sameCollab _ _ _ _
  · rw [if_neg hd]
    exact sameCollab_refl _

theorem overlayStep_preserves (y : String) (s : OverlaySettings)
    (acc : Bool × Env) (oc : OverlayCfg) (q : String) (c : FileContent)
    (hc : fsLookup acc.2.fs q = some c) :
    fsLookup (overlayStep y s acc oc).2.fs q = some c := by
  rw [overlayStep_eq]
  cases hl : fsLookup acc.2.fs (joinPath y oc.filename) with
  | some c' => exact hc
  | none =>
    by_cases hw : acc.2.writeOk (joinPath y oc.filename) = true
    · rw [if_pos hw]
      have hne : ¬ joinPath y oc.filename = q := by
        intro he
        rw [he, hc] at hl
        cases hl
      show fsLookup (fsWrite acc.2.fs (joinPath y oc.filename)
        (mkOverlayContent s oc)) q = some c
      rw [fsLookup_fsWrite, if_neg hne]
      exact hc
    · rw [if_neg hw]
      exact hc

theorem foldl_overlayStep_preserves (y : String) (s : OverlaySettings)
    (l : List OverlayCfg) :
    ∀ (acc : Bool × Env) (q : String) (c : FileContent),
      fsLookup acc.2.fs q = some c →
      fsLookup (l.foldl (overlayStep y s) acc).2.fs q = some c := by
  induction l with
  | nil => intro acc q c hc; exact hc
  | cons oc rest ih =>
    intro acc q c hc
    rw [List.foldl_cons]
    exact ih _ q c (overlayStep_preserves y s acc oc q c hc)

theorem create_anime_overlay_files_preserves (config : Config) (env : Env)
    (q : String) (c : FileContent) (hc : fsLookup env.fs q = some c) :
    fsLookup (create_anime_overlay_files config env).2.fs q = some c := by
  rw [create_anime_overlay_files_eq]
  by_cases hd : env.dirOk (get_kometa_paths config).1 = true
  · rw [if_pos hd]
    exact foldl_overlayStep_preserves _ _ _ _ q c hc
  · rw [if_neg hd]
    exact hc

theorem overlayStep_lookup_or (y : String) (s : OverlaySettings)
    (acc : Bool × Env) (oc : OverlayCfg) (q : String) :
    fsLookup (overlayStep y s acc oc).2.fs q = fsLookup acc.2.fs q ∨
      ∃ o, fsLookup (overlayStep y s acc oc).2.fs q = some (.overlayDoc o) := by
  rw [overlayStep_eq]
  cases hl : fsLookup acc.2.fs (joinPath y oc.filename) with
  | some c' => exact Or.inl rfl
  | none =>
    by_cases hw : acc.2.writeOk (joinPath y oc.filename) = true
    · rw [if_pos hw]
      show fsLookup (fsWrite acc.2.fs (joinPath y oc.filename)
          (mkOverlayContent s oc)) q = fsLookup acc.2.fs q ∨ _
      rw [fsLookup_fsWrite]
      by_cases he : joinPath y oc.filename = q
      · rw [if_pos he]
        exact Or.inr ⟨_, rfl⟩
      · rw [if_neg he]
        exact Or.inl rfl
    · rw [if_neg hw]
      exact Or.inl rfl

theorem foldl_overlayStep_lookup_or (y : String) (s : OverlaySettings)
    (l : List OverlayCfg) :
    ∀ (acc : Bool × Env) (q : String),
      fsLookup (l.foldl (overlayStep y s) acc).2.fs q = fsLookup acc.2.fs q ∨
        ∃ o, fsLookup (l.foldl (overlayStep y s) acc).2.fs q
              = some (.overlayDoc o) := by
  induction l with
  | nil => intro acc q; exact Or.inl rfl
  | cons oc rest ih =>
    intro acc q
    rw [List.foldl_cons]
    rcases ih (overlayStep y s acc oc) q with h | h
    · rcases overlayStep_lookup_or y s acc oc q with h2 | h2
      · exact Or.inl (h.trans h2)
      · obtain ⟨o, h2⟩ := h2
        exact Or.inr ⟨o, h.trans h2⟩
    · exact Or.inr h

theorem create_anime_overlay_files_lookup_or (config : Config) (env : Env)
    (q : String) :
    fsLookup (create_anime_overlay_files config env).2.fs q = fsLookup env.fs q
      ∨ ∃ o, fsLookup (create_anime_overlay_files config env).2.fs q
              = some (.overlayDoc o) := by
  rw [create_anime_overlay_files_eq]
  by_cases hd : env.dirOk (get_kometa_paths config).1 = true
  · rw [if_pos hd]
    exact foldl_overlayStep_lookup_or _ _ _ _ q
  · rw [if_neg hd]
    exact Or.inl rfl

/-! Lemmas about the synchronization algorithm. -/

theorem syncWithLists_eq (config : Config) (env : Env) (force_update : Bool)
    (u : String) (ls : List TraktList) :
    syncWithLists config env force_update u ls =
      if (force_update || changesDetected (classify u ls)
            (existingCollectionsOf env.fs (collectionsFilePath config))) = true then
        if env.writeOk (collectionsFilePath config) = true then
          (true,
           (create_anime_overlay_files config
             { env with
                 fs := fsWrite env.fs (collectionsFilePath config)
                   (.collectionsDoc (some (mergeCollections
                     (existingCollectionsOf env.fs (collectionsFilePath config))
                     (classify u ls)))) }).2)
        else (false, env)
      else (true, env) :=
  rfl

theorem syncWithLists_sameCollab (config : Config) (env : Env) (f : Bool)
    (u : String) (ls : List TraktList) :
    sameCollab (syncWithLists config env f u ls).2 env := by
  rw [syncWithLists_eq]
  by_cases hch : (f || changesDetected (classify u ls)
      (existingCollectionsOf env.fs (collectionsFilePath config))) = true
  · rw [if_pos hch]
    by_cases hw : env.writeOk (collectionsFilePath config) = true
    · rw [if_pos hw]
      exact sameCollab_trans (create_anime_overlay_files_sameCollab _ _)
        (sameCollab_setFs _ _)
    · rw [if_neg hw]
      exact sameCollab_refl _
  · rw [if_neg hch]
    exact sameCollab_refl _

/-- Inversion of a successful `syncWithLists` call: either nothing changed
and nothing was written, or the merged document was written and the overlay
emitter ran. -/
theorem syncWithLists_ok_true_inv (config : Config) (env : Env) (f : Bool)
    (u : String) (ls : List TraktList) (env₁ : Env)
    (h : syncWithLists config env f u ls = (true, env₁)) :
    (env₁ = env ∧
     (f || changesDetected (classify u ls)
        (existingCollectionsOf env.fs (collectionsFilePath config))) = false)
    ∨ (env.writeOk (collectionsFilePath config) = true ∧
       env₁ = (create_anime_overlay_files config
         { env with
             fs := fsWrite env.fs (collectionsFilePath config)
               (.collectionsDoc (some (mergeCollections
                 (existingCollectionsOf env.fs (collectionsFilePath config))
                 (classify u ls)))) }).2) := by
  rw [syncWithLists_eq] at h
  by_cases hch : (f || changesDetected (classify u ls)
      (existingCollectionsOf env.fs (collectionsFilePath config))) = true
  · rw [if_pos hch] at h
    by_cases hw : env.writeOk (collectionsFilePath config) = true
    · rw [if_pos hw] at h
      exact Or.inr ⟨hw, (Prod.mk.injEq .. ▸ h).2.symm⟩
    · rw [if_neg hw] at h
      exact absurd (Prod.mk.injEq .. ▸ h).1 (by simp)
  · rw [if_neg hch] at h
    refine Or.inl ⟨(Prod.mk.injEq .. ▸ h).2.symm, ?_⟩
    simpa using hch

theorem sync_eq_of (config : Config) (env : Env) (f : Bool) (u tok : String)
    (ls : List TraktList)
    (h1 : env.dirOk (get_kometa_paths config).2 = true)
    (h2 : truthyStr config.trakt_username = some u)
    (h3 : env.authToken = some tok)
    (h4 : env.http = .resp 200 (some ls)) :
    sync_anime_episode_collections config env f =
      .ok (syncWithLists config env f u ls) := by
  unfold sync_anime_episode_collections
  rw [h1, h2, h3, h4]
  simp

/-- Inversion of a successful sync: all the early guards passed and the
result came from `syncWithLists`. -/
theorem sync_ok_true_inv (config : Config) (env : Env) (f : Bool) (env₁ : Env)
    (h : sync_anime_episode_collections config env f = .ok (true, env₁)) :
    env.dirOk (get_kometa_paths config).2 = true ∧
    ∃ u tok ls, truthyStr config.trakt_username = some u ∧
      env.authToken = some tok ∧ env.http = .resp 200 (some ls) ∧
      syncWithLists config env f u ls = (true, env₁) := by
  unfold sync_anime_episode_collections at h
  by_cases h1 : env.dirOk (get_kometa_paths config).2 = true
  · rw [if_pos h1] at h
    refine ⟨h1, ?_⟩
    cases h2 : truthyStr config.trakt_username with
    | none => rw [h2] at h; cases h
    | some u =>
      rw [h2] at h
      cases h3 : env.authToken with
      | none => rw [h3] at h; cases h
      | some tok =>
        rw [h3] at h
        cases h4 : env.http with
        | exn => rw [h4] at h; cases h
        | resp status body =>
          rw [h4] at h
          have h' : (if status = 200 then
                (match body with
                 | none => Except.error SyncExn.jsonExn
                 | some trakt_lists =>
                     Except.ok (syncWithLists config env f u trakt_lists))
              else Except.ok (false, env)) = Except.ok (true, env₁) := h
          by_cases h5 : status = 200
          · subst h5
            rw [if_pos rfl] at h'
            cases h6 : body with
            | none => rw [h6] at h'; cases h'
            | some ls =>
              rw [h6] at h'
              exact ⟨u, tok, ls, rfl, rfl, rfl, Except.ok.inj h'⟩
          · rw [if_neg h5] at h'
            cases h'
  · rw [if_neg h1] at h
    cases h

theorem existingCollectionsOf_of_lookup_collections
    (fs : List (String × FileContent)) (path : String)
    (m : List (String × Entry))
    (h : fsLookup fs path = some (.collectionsDoc (some m))) :
    existingCollectionsOf fs path = m := by
  unfold existingCollectionsOf
  rw [h]

theorem existingCollectionsOf_of_lookup_overlay
    (fs : List (String × FileContent)) (path : String) (o : OverlayFile)
    (h : fsLookup fs path = some (.overlayDoc o)) :
    existingCollectionsOf fs path = [] := by
  unfold existingCollectionsOf
  rw [h]

/-- After a successful run of `syncWithLists`, running it again with
`force_update=False` on the same inputs takes the no-change branch and
leaves the environment untouched. -/
theorem syncWithLists_idem (config : Config) (env : Env) (f : Bool)
    (u : String) (ls : List TraktList) (env₁ : Env)
    (h : syncWithLists config env f u ls = (true, env₁)) :
    syncWithLists config env₁ false u ls = (true, env₁) := by
  rcases syncWithLists_ok_true_inv config env f u ls env₁ h with
    ⟨rfl, hch⟩ | ⟨hw, he⟩
  · rcases Bool.or_eq_false_iff.mp hch with ⟨hf, hdet⟩
    rw [syncWithLists_eq, hdet]
    simp
  · set env1w : Env :=
      { env with
          fs := fsWrite env.fs (collectionsFilePath config)
            (.collectionsDoc (some (mergeCollections
              (existingCollectionsOf env.fs (collectionsFilePath config))
              (classify u ls)))) } with henv1w
    have hlw : fsLookup env1w.fs (collectionsFilePath config) =
        some (.collectionsDoc (some (mergeCollections
          (existingCollectionsOf env.fs (collectionsFilePath config))
          (classify u ls)))) := by
      rw [henv1w]
      show fsLookup (fsWrite env.fs (collectionsFilePath config) _)
        (collectionsFilePath config) = _
      rw [fsLookup_fsWrite, if_pos rfl]
    have hdet : changesDetected (classify u ls)
        (existingCollectionsOf env₁.fs (collectionsFilePath config)) = false := by
      rcases create_anime_overlay_files_lookup_or config env1w
          (collectionsFilePath config) with hor | ⟨o, ho⟩
      · rw [he, existingCollectionsOf_of_lookup_collections _ _ _
          (hor.trans hlw)]
        exact changesDetected_mergeCollections _ _ (nodup_keys_classify u ls)
      · rw [he, existingCollectionsOf_of_lookup_overlay _ _ o ho]
        rfl
    rw [syncWithLists_eq, hdet]
    simp

/-- Claim C4: a sync that returned `true` is idempotent: running it again
with `force=false` against the same configuration and collaborator
outcomes performs no write at all (the environment is returned unchanged)
and returns `true`. -/
theorem sync_idempotent_second_run_no_write (config : Config) (env : Env)
    (force : Bool) (env₁ : Env)
    (h : sync_anime_episode_collections config env force = .ok (true, env₁)) :
    sync_anime_episode_collections config env₁ false = .ok (true, env₁) := by
  obtain ⟨h1, u, tok, ls, h2, h3, h4, h5⟩ := sync_ok_true_inv config env force env₁ h
  have hc : sameCollab env₁ env := by
    have hsc := syncWithLists_sameCollab config env force u ls
    rw [h5] at hsc
    exact hsc
  have h1' : env₁.dirOk (get_kometa_paths config).2 = true := by
    rw [hc.1]; exact h1
  have h3' : env₁.authToken = some tok := by
    rw [hc.2.1]; exact h3
  have h4' : env₁.http = .resp 200 (some ls) := by
    rw [hc.2.2.1]; exact h4
  rw [sync_eq_of config env₁ false u tok ls h1' h2 h3' h4',
    syncWithLists_idem config env force u ls env₁ h5]

theorem sync_idempotent_second_run_no_write_witness :
    sync_anime_episode_collections cfg0 env0Synced false = .ok (true, env0Synced) :=
  sync_idempotent_second_run_no_write cfg0 env0 true env0Synced (by rfl)

/-- Claim C6: whenever a sync returns `true` and actually changed the file
store, the collections document it left on disk has exactly the four fixed
category keys, in their fixed order — never more, never fewer — regardless
of which categories appeared in the fetched remote lists. -/
theorem sync_written_file_has_exactly_four_categories (config : Config)
    (env : Env) (force : Bool) (env₁ : Env)
    (h : sync_anime_episode_collections config env force = .ok (true, env₁))
    (hwrote : env₁.fs ≠ env.fs)
    (doc : List (String × Entry))
    (hdoc : fsLookup env₁.fs (collectionsFilePath config)
        = some (.collectionsDoc (some doc))) :
    doc.map Prod.fst = fixedCategoryNames := by
  obtain ⟨h1, u, tok, ls, h2, h3, h4, h5⟩ :=
    sync_ok_true_inv config env force env₁ h
  rcases syncWithLists_ok_true_inv config env force u ls env₁ h5 with
    ⟨rfl, _⟩ | ⟨hw, he⟩
  · exact absurd rfl hwrote
  · set env1w : Env :=
      { env with
          fs := fsWrite env.fs (collectionsFilePath config)
            (.collectionsDoc (some (mergeCollections
              (existingCollectionsOf env.fs (collectionsFilePath config))
              (classify u ls)))) } with henv1w
    have hlw : fsLookup env1w.fs (collectionsFilePath config) =
        some (.collectionsDoc (some (mergeCollections
          (existingCollectionsOf env.fs (collectionsFilePath config))
          (classify u ls)))) := by
      rw [henv1w]
      show fsLookup (fsWrite env.fs (collectionsFilePath config) _)
        (collectionsFilePath config) = _
      rw [fsLookup_fsWrite, if_pos rfl]
    rcases create_anime_overlay_files_lookup_or config env1w
        (collectionsFilePath config) with hor | ⟨o, ho⟩
    · rw [he] at hdoc
      rw [hdoc] at hor
      have hdocs := hor.trans hlw
      have hdoc4 : doc = mergeCollections
          (existingCollectionsOf env.fs (collectionsFilePath config))
          (classify u ls) := by
        have h6 := Option.some.inj hdocs
        injection h6 with h7
        exact Option.some.inj h7
      rw [hdoc4, keys_mergeCollections, keys_classify]
    · rw [he] at hdoc
      rw [hdoc] at ho
      simp at ho

theorem sync_written_file_has_exactly_four_categories_witness :
    (mergeCollections [] (classify "alice" demoLists)).map Prod.fst
      = fixedCategoryNames :=
  sync_written_file_has_exactly_four_categories cfg0 env0 true env0Synced
    (by rfl) (by decide)
    (mergeCollections [] (classify "alice" demoLists)) (by rfl)

/-- Claim C5: with `force=false`, change detection examines only categories
already present in the prior file — a single mismatching category decides
the result regardless of what follows it (first conjunct) — and when every
prior category matches the fresh classification (in particular when the
prior file is absent or empty, or when categories appear only in the new
classification), sync returns `true` without writing anything. -/
theorem change_detection_existing_only_and_true_without_write :
    (∀ (cd : CollectionsData) (n : String) (e : Entry)
        (newList : List String) (rest : List (String × Entry)),
        lookupA cd n = some newList →
        setEq e.traktList newList = false →
        changesDetected cd ((n, e) :: rest) = true)
  ∧ (∀ (config : Config) (env : Env) (u tok : String) (ls : List TraktList),
        env.dirOk (get_kometa_paths config).2 = true →
        truthyStr config.trakt_username = some u →
        env.authToken = some tok →
        env.http = .resp 200 (some ls) →
        (∀ n e, (n, e) ∈ existingCollectionsOf env.fs (collectionsFilePath config) →
            ∀ l, lookupA (classify u ls) n = some l →
              setEq e.traktList l = true) →
        sync_anime_episode_collections config env false = .ok (true, env)) := by
  constructor
  · intro cd n e newList rest hl hs
    have hneg : ¬ (setEq e.traktList newList = true) := by
      rw [hs]
      simp
    rw [changesDetected_cons_some cd n e rest newList hl, if_neg hneg]
  · intro config env u tok ls h1 h2 h3 h4 hmatch
    rw [sync_eq_of config env false u tok ls h1 h2 h3 h4, syncWithLists_eq]
    have hdet : changesDetected (classify u ls)
        (existingCollectionsOf env.fs (collectionsFilePath config)) = false :=
      (changesDetected_eq_false_iff _ _).mpr hmatch
    rw [hdet]
    simp

theorem change_detection_existing_only_and_true_without_write_witness :
    changesDetected [("Fillers", ["u1"])]
        [("Fillers", Entry.mk [("trakt_list", .strs ["u2"])])] = true
  ∧ sync_anime_episode_collections cfg0 env0 false = .ok (true, env0) := by
  constructor
  · exact change_detection_existing_only_and_true_without_write.1
      [("Fillers", ["u1"])] "Fillers" (Entry.mk [("trakt_list", .strs ["u2"])])
      ["u1"] [] (by decide) (by decide)
  · exact change_detection_existing_only_and_true_without_write.2
      cfg0 env0 "alice" "token" demoLists (by rfl) (by rfl) (by rfl) (by rfl)
      (fun n e hm => absurd hm (List.not_mem_nil _))

/-- Claim C9: a prior-file category whose name is not one of the four fixed
names can never flip change detection (its entry can be removed without
changing the outcome), and the rewritten document never contains an entry
for it — it is silently dropped. -/
theorem unknown_categories_ignored_and_dropped (u : String)
    (ls : List TraktList) (existing pre post : List (String × Entry))
    (n : String) (e : Entry) (hn : n ∉ fixedCategoryNames) :
    changesDetected (classify u ls) (pre ++ (n, e) :: post)
      = changesDetected (classify u ls) (pre ++ post)
  ∧ lookupA (mergeCollections existing (classify u ls)) n = none := by
  have hnone := lookupA_classify_none u ls n hn
  refine ⟨changesDetected_skip _ pre post n e hnone, ?_⟩
  rw [lookupA_mergeCollections, hnone]
  rfl

theorem unknown_categories_ignored_and_dropped_witness :
    changesDetected (classify "alice" demoLists)
        ([] ++ ("Custom", Entry.mk [("sync_mode", .str "append")]) :: [])
      = changesDetected (classify "alice" demoLists) ([] ++ [])
  ∧ lookupA (mergeCollections [] (classify "alice" demoLists)) "Custom" = none :=
  unknown_categories_ignored_and_dropped "alice" demoLists [] [] []
    "Custom" (Entry.mk [("sync_mode", .str "append")]) (by decide)

/-- Claim C1 (counterexample): the prior file holds a category entry named
"Custom" with a custom `sync_mode: append`; a forced sync rewrites the file
and the new file has no entry for that category at all, so its user
settings are not carried forward. -/
theorem sync_drops_prior_category_settings_cx :
    lookupA customPriorDoc "Custom" =
      some (Entry.mk [("sync_mode", .str "append"),
        ("trakt_list", .strs ["https://trakt.tv/users/alice/lists/old"])])
  ∧ sync_anime_episode_collections cfg0 envCustom true
      = .ok (true, envCustomSynced)
  ∧ (storedCollections envCustomSynced.fs (collectionsFilePath cfg0)).bind
      (fun d => lookupA d "Custom") = none :=
  ⟨by decide, by rfl, by decide⟩

/-- Claim C1 (amended): for every prior category entry whose name is one of
the four fixed categories, the rewritten document's entry for that category
carries every prior key and value forward unchanged and replaces only
`trakt_list` with the freshly classified URLs. -/
theorem merge_preserves_fixed_category_settings (u : String)
    (ls : List TraktList) (existing : List (String × Entry)) (name : String)
    (e : Entry) (hname : name ∈ fixedCategoryNames)
    (he : lookupA existing name = some e) :
    ∃ l e', lookupA (classify u ls) name = some l
      ∧ lookupA (mergeCollections existing (classify u ls)) name = some e'
      ∧ getField e' "trakt_list" = some (.strs l)
      ∧ ∀ k, k ≠ "trakt_list" → getField e' k = getField e k := by
  have hcl := classify_lookup u ls name hname
  refine ⟨ls.filterMap (classifiedUrl u name),
    Entry.mk (setField e.fields "trakt_list"
      (.strs (ls.filterMap (classifiedUrl u name)))), hcl, ?_, ?_, ?_⟩
  · rw [lookupA_mergeCollections, hcl, he]
    rfl
  · show lookupA (setField e.fields "trakt_list" _) "trakt_list" = _
    rw [lookupA_setField, if_pos rfl]
  · intro k hk
    show lookupA (setField e.fields "trakt_list" _) k = lookupA e.fields k
    rw [lookupA_setField, if_neg (fun h2 => hk h2.symm)]

theorem merge_preserves_fixed_category_settings_witness :
    ∃ l e', lookupA (classify "alice" demoLists) "Fillers" = some l
      ∧ lookupA (mergeCollections
          [("Fillers", Entry.mk [("sync_mode", .str "append")])]
          (classify "alice" demoLists)) "Fillers" = some e'
      ∧ getField e' "trakt_list" = some (.strs l)
      ∧ ∀ k, k ≠ "trakt_list" →
          getField e' k = getField (Entry.mk [("sync_mode", .str "append")]) k :=
  merge_preserves_fixed_category_settings "alice" demoLists
    [("Fillers", Entry.mk [("sync_mode", .str "append")])] "Fillers"
    (Entry.mk [("sync_mode", .str "append")]) (by decide) (by decide)

/-- Claim C2 (counterexample): two remote lists that map to the same URL in
the same category make that URL appear twice — a URL already present in a
category is appended again, not deduplicated. -/
theorem classify_double_counts_duplicate_url_cx :
    lookupA (classify "alice"
        [⟨"A_filler", some "shared"⟩, ⟨"B_filler", some "shared"⟩]) "Fillers"
      = some ["https://trakt.tv/users/alice/lists/shared",
              "https://trakt.tv/users/alice/lists/shared"] := by
  decide

/-- Claim C2 (amended): within each of the four fixed categories the
classified URLs are exactly those contributed by the remote records, in the
remote service's result order, with one occurrence appended per
contributing record (so duplicates are kept, not collapsed). -/
theorem classify_appends_in_result_order (u : String) (ls : List TraktList)
    (cat : String) (h : cat ∈ fixedCategoryNames) :
    lookupA (classify u ls) cat = some (ls.filterMap (classifiedUrl u cat)) :=
  classify_lookup u ls cat h

theorem classify_appends_in_result_order_witness :
    lookupA (classify "alice" demoLists) "Fillers"
      = some (demoLists.filterMap (classifiedUrl "alice" "Fillers")) :=
  classify_appends_in_result_order "alice" demoLists "Fillers" (by decide)

/-! Lemmas about asset provisioning and the process entry point. -/

theorem setup_assets_fst_true (config : Config) (env : Env)
    (r : Bool × Config × Env) (h : setup_assets config env = .ok r) :
    r.1 = true := by
  unfold setup_assets setup_assets_aux at h
  by_cases he : anime_enabled
      (setup_fonts config (setup_collection_posters config env).2).2.1 = true
  · rw [if_pos he] at h
    cases hu : update_anime_episode_collections
        (setup_fonts config (setup_collection_posters config env).2).2.1
        (setup_fonts config (setup_collection_posters config env).2).2.2 with
    | error e => rw [hu] at h; cases h
    | ok s =>
      rw [hu] at h
      have h2 := Except.ok.inj h
      rw [← h2]
  · rw [if_neg he] at h
    have h2 := Except.ok.inj h
    rw [← h2]

/-- Claim C8 (counterexample): with the bundled poster and font sources
absent, both provisioning operations do report failure to their caller:
they return `False` (the claim says they do not report failure). -/
theorem missing_asset_source_reports_failure_cx :
    setup_collection_posters cfg0 env0 = (false, env0)
  ∧ setup_fonts cfg0 env0 = (false, cfg0, env0) :=
  ⟨by rfl, by rfl⟩

/-- Claim C8 (amended): when the bundled source asset is missing, each
provisioning operation performs no copy (the environment and configuration
are returned unchanged, only a warning is logged) but returns `False`;
`setup_assets` treats that `False` as non-fatal and continues. -/
theorem missing_asset_source_no_copy_returns_false :
    (∀ (config : Config) (env : Env), fsLookup env.fs poster_source = none →
        setup_collection_posters config env = (false, env))
  ∧ (∀ (config : Config) (env : Env), fsLookup env.fs font_source = none →
        setup_fonts config env = (false, config, env)) := by
  constructor
  · intro config env h
    unfold setup_collection_posters
    by_cases h1 : env.dirOk (poster_assets_dir config) = true
    · rw [if_pos h1, h]
      simp
    · rw [if_neg h1]
  · intro config env h
    unfold setup_fonts
    by_cases h1 : env.dirOk (fonts_dir config) = true
    · rw [if_pos h1, h]
    · rw [if_neg h1]

theorem missing_asset_source_no_copy_returns_false_witness :
    setup_collection_posters cfg0 envOverlay = (false, envOverlay)
  ∧ setup_fonts cfg0 envOverlay = (false, cfg0, envOverlay) :=
  ⟨missing_asset_source_no_copy_returns_false.1 cfg0 envOverlay (by decide),
   missing_asset_source_no_copy_returns_false.2 cfg0 envOverlay (by decide)⟩

/-- Claim C10: whenever `setup_assets` returns at all, it returns `true`,
regardless of whether the poster, font, collections-sync or overlay
sub-steps succeeded or failed. -/
theorem setup_assets_always_returns_true (config : Config) (env : Env)
    (r : Bool × Config × Env) (h : setup_assets config env = .ok r) :
    r.1 = true :=
  setup_assets_fst_true config env r h

theorem setup_assets_always_returns_true_witness :
    setup_assets cfg0 env0 = .ok assets0 ∧ assets0.1 = true :=
  ⟨by rfl, setup_assets_always_returns_true cfg0 env0 assets0 (by rfl)⟩

/-! Path distinctness: the collections file never aliases an overlay file. -/

theorem string_data_append (s t : String) : (s ++ t).data = s.data ++ t.data :=
  rfl

/-- Two strings with provably different reversed `k`-char suffixes differ,
whatever is prepended to them. -/
theorem append_ne_of_take_reverse (a b pre1 pre2 : String) (k : Nat)
    (hka : k ≤ a.data.length) (hkb : k ≤ b.data.length)
    (hne : a.data.reverse.take k ≠ b.data.reverse.take k) :
    pre1 ++ a ≠ pre2 ++ b := by
  intro he
  apply hne
  have hd : pre1.data ++ a.data = pre2.data ++ b.data := by
    have h1 := congrArg String.data he
    rw [string_data_append, string_data_append] at h1
    exact h1
  have h2 := congrArg (fun l => (List.reverse l).take k) hd
  simp only [List.reverse_append] at h2
  rw [List.take_append_of_le_length (by simpa using hka),
    List.take_append_of_le_length (by simpa using hkb)] at h2
  exact h2

theorem joinPath_suffix (a b : String) : ∃ pre, joinPath a b = pre ++ b := by
  unfold joinPath
  by_cases h1 : a = ""
  · rw [if_pos h1]
    exact ⟨"", rfl⟩
  · rw [if_neg h1]
    by_cases h2 : a.data.getLast? = some '/'
    · rw [if_pos h2]
      exact ⟨a, rfl⟩
    · rw [if_neg h2]
      exact ⟨a ++ "/", rfl⟩

theorem joinPath_ne_joinPath (a b s1 s2 : String) (k : Nat)
    (hka : k ≤ s1.data.length) (hkb : k ≤ s2.data.length)
    (hne : s1.data.reverse.take k ≠ s2.data.reverse.take k) :
    joinPath a s1 ≠ joinPath b s2 := by
  obtain ⟨p1, h1⟩ := joinPath_suffix a s1
  obtain ⟨p2, h2⟩ := joinPath_suffix b s2
  rw [h1, h2]
  exact append_ne_of_take_reverse s1 s2 p1 p2 k hka hkb hne

theorem collectionsFilePath_ne_overlayPath (config : Config) (p : String)
    (hp : p ∈ overlayPaths config) : collectionsFilePath config ≠ p := by
  simp only [overlayPaths, overlayConfigs, List.map_cons, List.map_nil,
    List.mem_cons, List.not_mem_nil, or_false] at hp
  rcases hp with rfl | rfl | rfl | rfl
  · exact joinPath_ne_joinPath _ _ _ _ 9 (by decide) (by decide) (by decide)
  · exact joinPath_ne_joinPath _ _ _ _ 9 (by decide) (by decide) (by decide)
  · exact joinPath_ne_joinPath _ _ _ _ 9 (by decide) (by decide) (by decide)
  · exact joinPath_ne_joinPath _ _ _ _ 9 (by decide) (by decide) (by decide)

theorem syncWithLists_preserves (config : Config) (env : Env) (f : Bool)
    (u : String) (ls : List TraktList) (p : String) (c : FileContent)
    (hne : collectionsFilePath config ≠ p)
    (hc : fsLookup env.fs p = some c) :
    fsLookup (syncWithLists config env f u ls).2.fs p = some c := by
  rw [syncWithLists_eq]
  by_cases hch : (f || changesDetected (classify u ls)
      (existingCollectionsOf env.fs (collectionsFilePath config))) = true
  · rw [if_pos hch]
    by_cases hw : env.writeOk (collectionsFilePath config) = true
    · rw [if_pos hw]
      apply create_anime_overlay_files_preserves
      show fsLookup (fsWrite env.fs (collectionsFilePath config) _) p = some c
      rw [fsLookup_fsWrite, if_neg hne]
      exact hc
    · rw [if_neg hw]
      exact hc
  · rw [if_neg hch]
    exact hc

/-- A returned sync result either left the environment alone or came from
`syncWithLists`. -/
theorem sync_result_env (config : Config) (env : Env) (f : Bool)
    (r : Bool × Env)
    (h : sync_anime_episode_collections config env f = .ok r) :
    r.2 = env ∨ ∃ u ls, syncWithLists config env f u ls = r := by
  unfold sync_anime_episode_collections at h
  by_cases h1 : env.dirOk (get_kometa_paths config).2 = true
  · rw [if_pos h1] at h
    cases h2 : truthyStr config.trakt_username with
    | none =>
      rw [h2] at h
      exact Or.inl (congrArg Prod.snd (Except.ok.inj h).symm)
    | some u =>
      rw [h2] at h
      cases h3 : env.authToken with
      | none =>
        rw [h3] at h
        exact Or.inl (congrArg Prod.snd (Except.ok.inj h).symm)
      | some tok =>
        rw [h3] at h
        cases h4 : env.http with
        | exn => rw [h4] at h; cases h
        | resp status body =>
          rw [h4] at h
          have h' : (if status = 200 then
                (match body with
                 | none => Except.error SyncExn.jsonExn
                 | some trakt_lists =>
                     Except.ok (syncWithLists config env f u trakt_lists))
              else Except.ok (false, env)) = Except.ok r := h
          by_cases h5 : status = 200
          · subst h5
            rw [if_pos rfl] at h'
            cases h6 : body with
            | none => rw [h6] at h'; cases h'
            | some ls =>
              rw [h6] at h'
              exact Or.inr ⟨u, ls, Except.ok.inj h'⟩
          · rw [if_neg h5] at h'
            exact Or.inl (congrArg Prod.snd (Except.ok.inj h').symm)
  · rw [if_neg h1] at h
    exact Or.inl (congrArg Prod.snd (Except.ok.inj h).symm)

/-- Claim C7: an overlay file that already exists on disk is never touched:
neither the overlay emitter (which skips existing files without comparing
content) nor a whole sync run changes its content in any way. -/
theorem existing_overlay_files_unchanged (config : Config) (env : Env)
    (p : String) (hp : p ∈ overlayPaths config) (c : FileContent)
    (hc : fsLookup env.fs p = some c) :
    fsLookup (create_anime_overlay_files config env).2.fs p = some c
  ∧ ∀ (f : Bool) (r : Bool × Env),
      sync_anime_episode_collections config env f = .ok r →
      fsLookup r.2.fs p = some c := by
  refine ⟨create_anime_overlay_files_preserves config env p c hc, ?_⟩
  intro f r h
  rcases sync_result_env config env f r h with he | ⟨u, ls, hsw⟩
  · rw [he]
    exact hc
  · rw [← hsw]
    exact syncWithLists_preserves config env f u ls p c
      (collectionsFilePath_ne_overlayPath config p hp) hc

theorem existing_overlay_files_unchanged_witness :
    fsLookup (create_anime_overlay_files cfg0 envOverlay).2.fs
        (joinPath "/kometa/config/overlays" "fillers.yml")
      = some (FileContent.raw "custom bytes") :=
  (existing_overlay_files_unchanged cfg0 envOverlay
      (joinPath "/kometa/config/overlays" "fillers.yml") (by decide)
      (FileContent.raw "custom bytes") (by decide)).1

end AssetManager
